import Mathlib

/-!
Verification of the glycoprep matching and calibration core
(matching.py and calibration.py) against its specification.

Tabular data is modelled as insertion-ordered dictionaries of cells,
mirroring pandas rows converted by Series.to_dict(); float NaN is a
distinguished cell value, and every numeric computation of the source is
carried out in exact rational arithmetic.
-/

namespace Glyco

attribute [local semireducible] Rat.add Rat.mul Rat.inv Rat.sub Rat.ofScientific

deriving instance DecidableEq for Except

/-- A cell value in a tabular row: a finite numeric value, a missing value
(float NaN in the source), or a string label. -/
inductive Val where
  | num (q : ℚ)
  | nan
  | str (s : String)
deriving DecidableEq

/-- A row is an insertion-ordered dictionary from column names to values,
modelling the Python dict produced by Series.to_dict(). -/
abbrev Row := List (String × Val)

/-- Dictionary lookup: the value at the first occurrence of the key. -/
def dictGet (r : Row) (k : String) : Option Val :=
  match r with
  | [] => none
  | (k1, v) :: rest => if k1 = k then some v else dictGet rest k

/-- Python dict assignment d[k] = v: replaces the value in place when the
key is already present, appends a new entry at the end otherwise. -/
def dictSet (r : Row) (k : String) (v : Val) : Row :=
  match r with
  | [] => [(k, v)]
  | (k1, v1) :: rest =>
      if k1 = k then (k1, v) :: rest else (k1, v1) :: dictSet rest k v

/-- The finite numeric content of a cell, if any. -/
def getNum : Val → Option ℚ
  | Val.num q => some q
  | _ => none

/-- pd.isna on a scalar cell: true exactly on NaN. -/
def isNa : Val → Bool
  | Val.nan => true
  | _ => false

/-- The numeric content of the cell of row r at column c, if the column is
present and holds a finite number. -/
def getNumO (r : Row) (c : String) : Option ℚ :=
  (dictGet r c).bind getNum

/-- The cell of row r at column c; pandas guarantees presence for frame
columns, a missing key is modelled as NaN. -/
def cellOf (r : Row) (c : String) : Val :=
  (dictGet r c).getD Val.nan

/-- A data frame: its column list and its rows. -/
structure DF where
  cols : List String
  rows : List Row

/-- matching.calculate_ppm: signed parts-per-million difference,
positive when observed exceeds theoretical. -/
def calculate_ppm (observed theoretical : ℚ) : ℚ :=
  ((observed - theoretical) / theoretical) * 1000000

/-- matching.calculate_confidence: linear confidence score clamped at 0. -/
def calculate_confidence (ppm_diff ppm_threshold : ℚ) : ℚ :=
  max 0 (1 - (|ppm_diff| / ppm_threshold))

/-- The ppm value computed by the source in float arithmetic against one
reference cell, as an optional rational: none models a non-finite float
result.  In numpy, division by a zero theoretical mass yields an infinity
(or NaN when observed is also zero) and a NaN theoretical mass propagates
NaN; in both cases the later comparison |ppm| <= threshold is false, which
is what the none branch of ppmAccept captures. -/
def floatPpm (observed : ℚ) (m : Val) : Option ℚ :=
  match m with
  | Val.num q => if q = 0 then none else some (calculate_ppm observed q)
  | _ => none

/-- The matches_mask entry for one (peak, reference) pair:
|ppm| <= ppm_threshold, where a non-finite ppm compares false. -/
def ppmAccept (observed : ℚ) (m : Val) (t : ℚ) : Bool :=
  match floatPpm observed m with
  | some p => decide (|p| ≤ t)
  | none => false

/-- The accepted (ppm_difference, reference row) pairs for one observed
mass, in reference order: the np.where over the boolean mask. -/
def acceptedPairs (observed : ℚ) (massCol : String) (refRows : List Row)
    (t : ℚ) : List (ℚ × Row) :=
  refRows.filterMap (fun r =>
    match floatPpm observed (cellOf r massCol) with
    | some p => if |p| ≤ t then some (p, r) else none
    | none => none)

/-- One emitted match row: the peak dict, then observed_mz, then every
reference column (dict update, so a reference column overwrites a
same-named peak attribute), then the computed ppm_difference and
confidence. -/
def buildMatchRow (row : Row) (observed : ℚ) (refCols : List String)
    (refRow : Row) (p t : ℚ) : Row :=
  let c0 := dictSet row "observed_mz" (Val.num observed)
  let c1 := refCols.foldl (fun acc col => dictSet acc col (cellOf refRow col)) c0
  let c2 := dictSet c1 "ppm_difference" (Val.num p)
  dictSet c2 "confidence" (Val.num (calculate_confidence p t))

/-- The peak loop of match_peaks_to_glycans, accumulating matched and
unmatched rows exactly as the source appends them.  A NaN observed mass is
skipped; a peak with no accepted pair is appended once, untouched, to the
unmatched accumulator; otherwise one match row per accepted pair is
appended in reference order.  (A non-numeric, non-NaN observed mass would
raise a TypeError in the source; well-typedness hypotheses of the theorems
keep that branch unexercised.) -/
def matchLoop (refDF : DF) (t : ℚ) (mzCol massCol : String) :
    List Row → List Row × List Row → List Row × List Row
  | [], acc => acc
  | row :: rest, (ms, us) =>
    match dictGet row mzCol with
    | some (Val.num observed) =>
        let pairs := acceptedPairs observed massCol refDF.rows t
        if pairs = [] then
          matchLoop refDF t mzCol massCol rest (ms, us ++ [row])
        else
          matchLoop refDF t mzCol massCol rest
            (ms ++ pairs.map (fun pr => buildMatchRow row observed refDF.cols pr.2 pr.1 t),
             us)
    | _ => matchLoop refDF t mzCol massCol rest (ms, us)

/-- The error raised by the source for an absent required column: a
ValueError whose message names the table and the missing column. -/
inductive SchemaErr where
  | missingColumn (table : String) (column : String)
deriving DecidableEq

/-- matching.match_peaks_to_glycans: validate the two required columns,
then partition peaks into matched and unmatched rows. -/
def match_peaks_to_glycans (peaks reference : DF) (t : ℚ)
    (mzCol massCol : String) : Except SchemaErr (List Row × List Row) :=
  if mzCol ∈ peaks.cols then
    if massCol ∈ reference.cols then
      Except.ok (matchLoop reference t mzCol massCol peaks.rows ([], []))
    else Except.error (SchemaErr.missingColumn "Reference" massCol)
  else Except.error (SchemaErr.missingColumn "Peaks" mzCol)

/-- Specification-side description of the match rows contributed by one
peak row. -/
def matchedOf (refDF : DF) (t : ℚ) (mzCol massCol : String) (r : Row) :
    List Row :=
  match dictGet r mzCol with
  | some (Val.num observed) =>
      (acceptedPairs observed massCol refDF.rows t).map
        (fun pr => buildMatchRow r observed refDF.cols pr.2 pr.1 t)
  | _ => []

/-- Specification-side description of the unmatched rows contributed by
one peak row. -/
def unmatchedOf (refDF : DF) (t : ℚ) (mzCol massCol : String) (r : Row) :
    List Row :=
  match dictGet r mzCol with
  | some (Val.num observed) =>
      if acceptedPairs observed massCol refDF.rows t = [] then [r] else []
  | _ => []

theorem dictGet_dictSet_same (r : Row) (k : String) (v : Val) :
    dictGet (dictSet r k v) k = some v := by
  induction r with
  | nil => simp [dictGet, dictSet]
  | cons hd tl ih =>
      obtain ⟨k1, v1⟩ := hd
      by_cases h : k1 = k
      · simp [dictGet, dictSet, h]
      · simp [dictGet, dictSet, h, ih]

theorem dictGet_dictSet_ne (r : Row) (k k1 : String) (v : Val)
    (h : k1 ≠ k) : dictGet (dictSet r k v) k1 = dictGet r k1 := by
  have hne : ¬ k = k1 := fun hh => h hh.symm
  induction r with
  | nil => simp [dictGet, dictSet, hne]
  | cons hd tl ih =>
      obtain ⟨k2, v2⟩ := hd
      by_cases h2 : k2 = k
      · subst h2
        simp [dictGet, dictSet, hne]
      · by_cases h3 : k2 = k1
        · subst h3
          simp [dictGet, dictSet, h2]
        · simp [dictGet, dictSet, h2, h3, ih]

/-- The imperative matching loop equals its functional description. -/
theorem matchLoop_spec (refDF : DF) (t : ℚ) (mzCol massCol : String)
    (rows : List Row) (ms us : List Row) :
    matchLoop refDF t mzCol massCol rows (ms, us) =
      (ms ++ rows.flatMap (matchedOf refDF t mzCol massCol),
       us ++ rows.flatMap (unmatchedOf refDF t mzCol massCol)) := by
  induction rows generalizing ms us with
  | nil => simp [matchLoop]
  | cons row rest ih =>
      cases hv : dictGet row mzCol with
      | none =>
          simp [matchLoop, hv, matchedOf, unmatchedOf, ih]
      | some v =>
          cases v with
          | num observed =>
              by_cases hp : acceptedPairs observed massCol refDF.rows t = []
              · simp [matchLoop, hv, hp, matchedOf, unmatchedOf, ih]
              · simp [matchLoop, hv, hp, matchedOf, unmatchedOf, ih]
          | nan => simp [matchLoop, hv, matchedOf, unmatchedOf, ih]
          | str s => simp [matchLoop, hv, matchedOf, unmatchedOf, ih]

theorem acceptedPairs_mem {observed : ℚ} {massCol : String} {refRows : List Row}
    {t p : ℚ} {ref : Row}
    (h : (p, ref) ∈ acceptedPairs observed massCol refRows t) :
    ref ∈ refRows ∧ |p| ≤ t ∧ ∃ m : ℚ, cellOf ref massCol = Val.num m ∧
      m ≠ 0 ∧ p = calculate_ppm observed m := by
  obtain ⟨r, hr, hf⟩ := List.mem_filterMap.mp h
  cases hm : floatPpm observed (cellOf r massCol) with
  | none => rw [hm] at hf; exact absurd hf (by simp)
  | some q =>
      rw [hm] at hf
      have hf2 : (if |q| ≤ t then some (q, r) else none) = some (p, ref) := hf
      by_cases hle : |q| ≤ t
      · rw [if_pos hle] at hf2
        have hq : q = p := congrArg Prod.fst (Option.some.inj hf2)
        have hrr : r = ref := congrArg Prod.snd (Option.some.inj hf2)
        subst hq
        subst hrr
        refine ⟨hr, hle, ?_⟩
        cases hcell : cellOf r massCol with
        | num mq =>
            rw [hcell] at hm
            have hm2 : (if mq = 0 then none else
                some (calculate_ppm observed mq)) = some q := hm
            by_cases hz : mq = 0
            · rw [if_pos hz] at hm2; cases hm2
            · rw [if_neg hz] at hm2
              exact ⟨mq, rfl, hz, (Option.some.inj hm2).symm⟩
        | nan =>
            rw [hcell] at hm
            have hm2 : (none : Option ℚ) = some q := hm
            cases hm2
        | str s =>
            rw [hcell] at hm
            have hm2 : (none : Option ℚ) = some q := hm
            cases hm2
      · rw [if_neg hle] at hf2; cases hf2

theorem acceptedPairs_mem_of {observed m t : ℚ} {massCol : String}
    {refRows : List Row} {ref : Row} (href : ref ∈ refRows)
    (hm : cellOf ref massCol = Val.num m) (hne : m ≠ 0)
    (hle : |calculate_ppm observed m| ≤ t) :
    (calculate_ppm observed m, ref) ∈ acceptedPairs observed massCol refRows t := by
  apply List.mem_filterMap.mpr
  exact ⟨ref, href, by simp [floatPpm, hm, hne, hle]⟩

theorem dictGet_foldl_notMem (init : Row) (cols : List String) (f : String → Val)
    (k : String) (hk : k ∉ cols) :
    dictGet (cols.foldl (fun acc c => dictSet acc c (f c)) init) k =
      dictGet init k := by
  induction cols generalizing init with
  | nil => rfl
  | cons c rest ih =>
      simp only [List.foldl]
      rw [ih _ (fun h => hk (List.mem_cons_of_mem _ h)),
        dictGet_dictSet_ne _ _ _ _
          (fun h => hk (by rw [h]; exact List.mem_cons_self c rest))]

theorem dictGet_foldl_mem (init : Row) (cols : List String) (f : String → Val)
    (k : String) (hk : k ∈ cols) :
    dictGet (cols.foldl (fun acc c => dictSet acc c (f c)) init) k =
      some (f k) := by
  induction cols generalizing init with
  | nil => cases hk
  | cons c rest ih =>
      by_cases h : k ∈ rest
      · exact ih _ h
      · have hc : k = c := by
          rcases List.mem_cons.mp hk with h1 | h1
          · exact h1
          · exact absurd h1 h
        subst hc
        simp only [List.foldl]
        rw [dictGet_foldl_notMem _ _ _ _ h, dictGet_dictSet_same]

theorem buildMatchRow_ppm (row : Row) (observed : ℚ) (refCols : List String)
    (refRow : Row) (p t : ℚ) :
    dictGet (buildMatchRow row observed refCols refRow p t) "ppm_difference" =
      some (Val.num p) := by
  unfold buildMatchRow
  rw [dictGet_dictSet_ne _ _ _ _ (by decide), dictGet_dictSet_same]

theorem buildMatchRow_confidence (row : Row) (observed : ℚ)
    (refCols : List String) (refRow : Row) (p t : ℚ) :
    dictGet (buildMatchRow row observed refCols refRow p t) "confidence" =
      some (Val.num (calculate_confidence p t)) := by
  unfold buildMatchRow
  rw [dictGet_dictSet_same]

/-- The result of a possibly-irrational float computation of the source:
NaN, or the nonnegative square root of a rational.  pandas std returns the
square root of the ddof-1 variance; the variance is rational, its root is
represented symbolically. -/
inductive RVal where
  | nan
  | sqrtOf (q : ℚ)
deriving DecidableEq

/-- One row of the shift table produced by calibration.estimate_sample_shift:
the groupby key and the agg columns, in source order.  The medians and means
are optional rationals with none standing for float NaN. -/
structure ShiftRow where
  sample : Val
  shift_median : Option ℚ
  shift_mean : Option ℚ
  shift_std : RVal
  n_peaks : ℕ
deriving DecidableEq

/-- The distinct group keys of df.groupby(sample_column): pandas drops NaN
keys.  (pandas additionally sorts the group keys; that only permutes the rows
of the shift table and no property below depends on their order, so the keys
are kept in dedup order.) -/
def sampleKeys (df : List Row) (sampleCol : String) : List Val :=
  ((df.filterMap (fun r => dictGet r sampleCol)).filter
      (fun v => !(isNa v))).dedup

/-- The non-null numeric values of column ppmCol among the rows of group k:
the series pandas aggregates (its agg functions skip NaN, and count counts
non-null entries). -/
def groupVals (df : List Row) (sampleCol ppmCol : String) (k : Val) :
    List ℚ :=
  (df.filter (fun r => decide (dictGet r sampleCol = some k))).filterMap
    (fun r => getNumO r ppmCol)

/-- pandas Series.median over the non-null values: the middle of the sorted
list, or the mean of the two middle entries; NaN (none) on an empty list.
(pandas sorts the values; insertion sort produces the same sorted list.) -/
def medianQ (xs : List ℚ) : Option ℚ :=
  if xs.length = 0 then none
  else
    let s := xs.insertionSort (fun a b => a ≤ b)
    some (if xs.length % 2 = 1 then s.getD (xs.length / 2) 0
          else ((s.getD (xs.length / 2 - 1) 0) + s.getD (xs.length / 2) 0) / 2)

/-- pandas Series.mean over the non-null values; NaN (none) on an empty
list. -/
def meanQ (xs : List ℚ) : Option ℚ :=
  if xs.length = 0 then none else some (xs.sum / (xs.length : ℚ))

/-- pandas Series.std (ddof = 1) over the non-null values: NaN when fewer
than two values, otherwise the square root of the sample variance. -/
def stdQ (xs : List ℚ) : RVal :=
  if xs.length < 2 then RVal.nan
  else
    let m := xs.sum / (xs.length : ℚ)
    RVal.sqrtOf ((xs.map (fun x => (x - m) ^ 2)).sum / ((xs.length : ℚ) - 1))

/-- calibration.estimate_sample_shift: one shift row per groupby key,
aggregating median, mean, std and count of the ppm column.  On an empty
frame the source returns an empty frame with the declared columns, i.e. no
rows, which the general case already yields. -/
def estimate_sample_shift (df : List Row) (ppmCol sampleCol : String) :
    List ShiftRow :=
  (sampleKeys df sampleCol).map (fun k =>
    let xs := groupVals df sampleCol ppmCol k
    { sample := k, shift_median := medianQ xs, shift_mean := meanQ xs,
      shift_std := stdQ xs, n_peaks := xs.length })

/-- The shift_map dict lookup of apply_shift_correction: the shift_median of
the first shift row whose sample equals the key. -/
def lookupShift (shifts : List ShiftRow) (k : Val) : Option ShiftRow :=
  shifts.find? (fun sr => decide (sr.sample = k))

/-- An optional rational as a cell: none is float NaN. -/
def valOfOpt : Option ℚ → Val
  | some q => Val.num q
  | none => Val.nan

/-- Float subtraction of two cells with NaN propagation. -/
def subVal : Val → Val → Val
  | Val.num a, Val.num b => Val.num (a - b)
  | _, _ => Val.nan

/-- calibration.apply_shift_correction: on a non-empty frame, map each
sample to its shift_median (NaN when the sample is absent from the shift
table, as pandas Series.map yields), store it as sample_shift_estimate, and
store ppm - estimate as ppm_difference_corrected.  The source works on a
copy, never in place. -/
def apply_shift_correction (df : List Row) (shifts : List ShiftRow)
    (ppmCol sampleCol : String) : List Row :=
  if df.length = 0 then df
  else df.map (fun row =>
    let est : Val :=
      match dictGet row sampleCol with
      | some k =>
          match lookupShift shifts k with
          | some sr => valOfOpt sr.shift_median
          | none => Val.nan
      | none => Val.nan
    let r1 := dictSet row "sample_shift_estimate" est
    dictSet r1 "ppm_difference_corrected"
      (subVal ((dictGet r1 ppmCol).getD Val.nan) est))

/-- calibration.recalculate_confidence: on a non-empty frame, apply the
confidence lambda max(0.0, 1.0 - abs(x)/ppm_threshold) to the ppm column and
store the result as confidence_corrected.  On a NaN input the Python
builtin max(0.0, nan) returns its first argument 0.0, hence the num 0
branch.  The source works on a copy, never in place. -/
def recalculate_confidence (df : List Row) (t : ℚ) (ppmCol : String) :
    List Row :=
  if df.length = 0 then df
  else df.map (fun row =>
    let cv : Val :=
      match getNumO row ppmCol with
      | some x => Val.num (max 0 (1 - (|x| / t)))
      | none => Val.num 0
    dictSet row "confidence_corrected" cv)

/-- With both required columns present the matcher succeeds and returns the
peak-major concatenation of per-peak matched and unmatched contributions. -/
theorem match_ok (peaks reference : DF) (t : ℚ) (mzCol massCol : String)
    (hp : mzCol ∈ peaks.cols) (hr : massCol ∈ reference.cols) :
    match_peaks_to_glycans peaks reference t mzCol massCol =
      Except.ok (peaks.rows.flatMap (matchedOf reference t mzCol massCol),
        peaks.rows.flatMap (unmatchedOf reference t mzCol massCol)) := by
  unfold match_peaks_to_glycans
  rw [if_pos hp, if_pos hr, matchLoop_spec]
  simp

/-- The property claim C1 asserts of a matcher run: the run succeeds, the
ppm difference is the signed relative-error formula (positive exactly when
the observed mass exceeds a positive theoretical mass), a pair with nonzero
theoretical mass passes the mask iff |ppm| is at most the threshold with the
boundary included, every emitted match row carries an in-threshold ppm and
its confidence, and every in-threshold pair is emitted. -/
def PpmThresholdProp (peaks reference : DF) (t : ℚ)
    (mzCol massCol : String) : Prop :=
  ∃ matched unmatched,
    match_peaks_to_glycans peaks reference t mzCol massCol =
      Except.ok (matched, unmatched) ∧
    (∀ observed m : ℚ, 0 < m →
      (0 < calculate_ppm observed m ↔ m < observed)) ∧
    (∀ observed m : ℚ, m ≠ 0 →
      (ppmAccept observed (Val.num m) t = true ↔ |calculate_ppm observed m| ≤ t)) ∧
    (∀ row ∈ matched, ∃ p : ℚ,
      dictGet row "ppm_difference" = some (Val.num p) ∧ |p| ≤ t ∧
      dictGet row "confidence" = some (Val.num (calculate_confidence p t))) ∧
    (∀ prow ∈ peaks.rows, ∀ observed : ℚ,
      dictGet prow mzCol = some (Val.num observed) →
      ∀ ref ∈ reference.rows, ∀ m : ℚ, cellOf ref massCol = Val.num m →
        m ≠ 0 → |calculate_ppm observed m| ≤ t →
        buildMatchRow prow observed reference.cols ref
          (calculate_ppm observed m) t ∈ matched)

/-- C1: for every peak with a defined observed_mz and every reference entry
(with the nonzero theoretical mass the spec requires of reference entries),
the matcher computes ppm_difference = (observed_mz - theoretical_mass) /
theoretical_mass * 1e6, signed and positive when observed exceeds
theoretical, and the (peak, reference) pair is emitted as a match iff
|ppm_difference| <= ppm_threshold, the exactly-at-threshold boundary
included. -/
theorem C1_ppm_formula_and_threshold (peaks reference : DF) (t : ℚ)
    (mzCol massCol : String) (hp : mzCol ∈ peaks.cols)
    (hr : massCol ∈ reference.cols) :
    PpmThresholdProp peaks reference t mzCol massCol := by
  refine ⟨_, _, match_ok peaks reference t mzCol massCol hp hr, ?_, ?_, ?_, ?_⟩
  · intro observed m hm
    unfold calculate_ppm
    have h6 : (0 : ℚ) < 1000000 := by norm_num
    constructor
    · intro h
      by_contra hno
      push_neg at hno
      have h1 : observed - m ≤ 0 := by linarith
      have h2 : (observed - m) / m ≤ 0 :=
        div_nonpos_of_nonpos_of_nonneg h1 (le_of_lt hm)
      nlinarith
    · intro h
      have h1 : (0 : ℚ) < observed - m := by linarith
      exact mul_pos (div_pos h1 hm) h6
  · intro observed m hne
    simp [ppmAccept, floatPpm, hne]
  · intro row hrow
    obtain ⟨prow, hprow, hmem⟩ := List.mem_flatMap.mp hrow
    revert hmem
    unfold matchedOf
    cases hv : dictGet prow mzCol with
    | none => intro hmem; exact absurd hmem (by simp)
    | some v =>
        cases v with
        | num observed =>
            intro hmem
            obtain ⟨pr, hpr, hbuild⟩ := List.mem_map.mp hmem
            obtain ⟨p, r⟩ := pr
            obtain ⟨_, hle, m, hcell, hz, hppm⟩ := acceptedPairs_mem hpr
            subst hbuild
            exact ⟨p, buildMatchRow_ppm .., hle, buildMatchRow_confidence ..⟩
        | nan => intro hmem; exact absurd hmem (by simp)
        | str s => intro hmem; exact absurd hmem (by simp)
  · intro prow hprow observed hobs ref href m hcell hz hle
    apply List.mem_flatMap.mpr
    refine ⟨prow, hprow, ?_⟩
    unfold matchedOf
    rw [hobs]
    exact List.mem_map.mpr
      ⟨(calculate_ppm observed m, ref), acceptedPairs_mem_of href hcell hz hle, rfl⟩

/-- Witness for C1: a run with one peak at m/z 1000 and one reference mass
1000 under threshold 100. -/
theorem C1_ppm_formula_and_threshold_w :
    PpmThresholdProp ⟨["m_z"], [[("m_z", Val.num 1000)]]⟩
      ⟨["Mass"], [[("Mass", Val.num 1000)]]⟩ 100 "m_z" "Mass" :=
  C1_ppm_formula_and_threshold _ _ _ _ _ (by decide) (by decide)

/-- Whether a cell is of the numeric-or-NaN kind the matcher accepts for
the observed-mass column. -/
def numOrNan : Option Val → Bool
  | some (Val.num _) => true
  | some Val.nan => true
  | _ => false

theorem flatMap_single_eq_filter (l : List Row) (p : Row → Bool) :
    l.flatMap (fun r => if p r then [r] else []) = l.filter p := by
  induction l with
  | nil => rfl
  | cons a l ih => by_cases h : p a <;> simp [List.filter_cons, h, ih]

/-- The per-row unmatched contribution as a filter condition: the row has a
finite observed mass and zero accepted pairs. -/
theorem unmatchedOf_eq_if (refDF : DF) (t : ℚ) (mzCol massCol : String)
    (r : Row) :
    unmatchedOf refDF t mzCol massCol r =
      if (match getNumO r mzCol with
          | some observed =>
              decide (acceptedPairs observed massCol refDF.rows t = [])
          | none => false) then [r] else [] := by
  unfold unmatchedOf getNumO
  cases hv : dictGet r mzCol with
  | none => rfl
  | some v =>
      cases v with
      | num observed =>
          by_cases h : acceptedPairs observed massCol refDF.rows t = [] <;>
            simp [getNum, Option.bind, h]
      | nan => rfl
      | str s => rfl

/-- The property claim C2 asserts of a matcher run: the run succeeds; the
unmatched output consists of exactly those input rows, untouched and one
occurrence each, that have a finite observed mass and zero accepted pairs;
the matched output has, peak-major, exactly one row per accepted pair of
each finite-mass peak; and a peak whose observed mass is NaN contributes to
neither output.  The three cases are mutually exclusive by construction
(none / empty / non-empty accepted-pair list). -/
def PeakPartitionProp (peaks reference : DF) (t : ℚ)
    (mzCol massCol : String) : Prop :=
  ∃ matched unmatched,
    match_peaks_to_glycans peaks reference t mzCol massCol =
      Except.ok (matched, unmatched) ∧
    unmatched = peaks.rows.filter (fun r =>
      match getNumO r mzCol with
      | some observed =>
          decide (acceptedPairs observed massCol reference.rows t = [])
      | none => false) ∧
    matched = peaks.rows.flatMap (matchedOf reference t mzCol massCol) ∧
    (∀ r ∈ peaks.rows, ∀ observed : ℚ, getNumO r mzCol = some observed →
      matchedOf reference t mzCol massCol r =
        (acceptedPairs observed massCol reference.rows t).map
          (fun pr => buildMatchRow r observed reference.cols pr.2 pr.1 t)) ∧
    (∀ r ∈ peaks.rows, getNumO r mzCol = none →
      matchedOf reference t mzCol massCol r = [] ∧
      unmatchedOf reference t mzCol massCol r = [])

/-- C2: every input peak falls into exactly one of three disjoint cases: it
appears once, untouched, in the unmatched output when it has a finite
observed mass and zero accepted pairs; it appears in the matched output with
one row per accepted pair when it has at least one; and it appears in
neither output when its observed mass is NaN.  The hypothesis hwf restricts
inputs to the numeric-or-NaN observed-mass cells the source accepts (any
other cell type raises a TypeError in Python). -/
theorem C2_peak_partition (peaks reference : DF) (t : ℚ)
    (mzCol massCol : String) (hp : mzCol ∈ peaks.cols)
    (hr : massCol ∈ reference.cols)
    (hwf : ∀ r ∈ peaks.rows, numOrNan (dictGet r mzCol) = true) :
    PeakPartitionProp peaks reference t mzCol massCol := by
  refine ⟨_, _, match_ok peaks reference t mzCol massCol hp hr, ?_, rfl, ?_, ?_⟩
  · have hfun : unmatchedOf reference t mzCol massCol = fun r =>
        if (match getNumO r mzCol with
            | some observed =>
                decide (acceptedPairs observed massCol reference.rows t = [])
            | none => false) then [r] else [] :=
      funext (unmatchedOf_eq_if reference t mzCol massCol)
    rw [hfun, flatMap_single_eq_filter]
  · intro r hrmem observed hobs
    unfold matchedOf
    unfold getNumO at hobs
    cases hv : dictGet r mzCol with
    | none => rw [hv] at hobs; cases hobs
    | some v =>
        rw [hv] at hobs
        cases v with
        | num q =>
            have : q = observed := Option.some.inj hobs
            subst this
            rfl
        | nan => cases hobs
        | str s => cases hobs
  · intro r hrmem hobs
    unfold getNumO at hobs
    unfold matchedOf unmatchedOf
    cases hv : dictGet r mzCol with
    | none => exact ⟨rfl, rfl⟩
    | some v =>
        rw [hv] at hobs
        cases v with
        | num q => cases hobs
        | nan => exact ⟨rfl, rfl⟩
        | str s => exact ⟨rfl, rfl⟩

/-- Witness for C2: two peaks, one matching the single reference mass and
one with an undefined (NaN) observed mass. -/
theorem C2_peak_partition_w :
    PeakPartitionProp ⟨["m_z"], [[("m_z", Val.num 1000)], [("m_z", Val.nan)]]⟩
      ⟨["Mass"], [[("Mass", Val.num 1000)]]⟩ 100 "m_z" "Mass" :=
  C2_peak_partition _ _ _ _ _ (by decide) (by decide) (by decide)

/-- C9: a missing required column on either input makes the matcher fail,
before any output is produced, with the schema error naming the missing
column (the source raises ValueError with a message naming the column; the
spec calls this failure kind SchemaError). -/
theorem C9_missing_column_schema_error (peaks reference : DF) (t : ℚ)
    (mzCol massCol : String) :
    (mzCol ∉ peaks.cols →
      match_peaks_to_glycans peaks reference t mzCol massCol =
        Except.error (SchemaErr.missingColumn "Peaks" mzCol)) ∧
    (mzCol ∈ peaks.cols → massCol ∉ reference.cols →
      match_peaks_to_glycans peaks reference t mzCol massCol =
        Except.error (SchemaErr.missingColumn "Reference" massCol)) := by
  constructor
  · intro h
    unfold match_peaks_to_glycans
    rw [if_neg h]
  · intro h1 h2
    unfold match_peaks_to_glycans
    rw [if_pos h1, if_neg h2]

/-- Witness for C9: one run missing the m/z column, one missing the mass
column. -/
theorem C9_missing_column_schema_error_w :
    match_peaks_to_glycans ⟨["mz"], []⟩ ⟨["Mass"], []⟩ 100 "m_z" "Mass" =
      Except.error (SchemaErr.missingColumn "Peaks" "m_z") ∧
    match_peaks_to_glycans ⟨["m_z"], []⟩ ⟨["M"], []⟩ 100 "m_z" "Mass" =
      Except.error (SchemaErr.missingColumn "Reference" "Mass") :=
  ⟨(C9_missing_column_schema_error ⟨["mz"], []⟩ ⟨["Mass"], []⟩ 100
      "m_z" "Mass").1 (by decide),
   (C9_missing_column_schema_error ⟨["m_z"], []⟩ ⟨["M"], []⟩ 100
      "m_z" "Mass").2 (by decide) (by decide)⟩

/-- C4 counterexample: a reference row with theoretical_mass = 0 raises no
error at all.  The run completes normally with Except.ok — in the source,
numpy turns the division by zero into an infinite (or NaN) ppm which simply
fails the threshold mask — so the claim that a DivisionDomainError is
raised before any match is emitted is false. -/
theorem C4_counterexample :
    match_peaks_to_glycans ⟨["m_z"], [[("m_z", Val.num 1000)]]⟩
      ⟨["Mass"], [[("Mass", Val.num 0)]]⟩ 100 "m_z" "Mass" =
      Except.ok ([], [[("m_z", Val.num 1000)]]) := by decide

/-- C4 amended: a reference row with theoretical_mass = 0 is tolerated
silently: the matcher still succeeds (no DivisionDomainError exists in the
code), the zero-mass pair never passes the threshold mask because its float
ppm is non-finite, and consequently no emitted match ever involves a
zero-mass reference row. -/
theorem C4_zero_mass_silently_ignored (peaks reference : DF) (t : ℚ)
    (mzCol massCol : String) (hp : mzCol ∈ peaks.cols)
    (hr : massCol ∈ reference.cols) :
    (∃ out, match_peaks_to_glycans peaks reference t mzCol massCol =
      Except.ok out) ∧
    (∀ observed : ℚ, ppmAccept observed (Val.num 0) t = false) ∧
    (∀ observed p : ℚ, ∀ ref : Row,
      (p, ref) ∈ acceptedPairs observed massCol reference.rows t →
      cellOf ref massCol ≠ Val.num 0) := by
  refine ⟨⟨_, match_ok peaks reference t mzCol massCol hp hr⟩, ?_, ?_⟩
  · intro observed
    simp [ppmAccept, floatPpm]
  · intro observed p ref hmem heq
    obtain ⟨_, _, m, hcell, hz, _⟩ := acceptedPairs_mem hmem
    rw [heq] at hcell
    exact hz (Val.num.inj hcell).symm

/-- Witness for C4 amended: the zero-mass run of the counterexample. -/
theorem C4_zero_mass_silently_ignored_w :
    (∃ out, match_peaks_to_glycans ⟨["m_z"], [[("m_z", Val.num 1000)]]⟩
      ⟨["Mass"], [[("Mass", Val.num 0)]]⟩ 100 "m_z" "Mass" =
      Except.ok out) ∧
    (∀ observed : ℚ, ppmAccept observed (Val.num 0) 100 = false) ∧
    (∀ observed p : ℚ, ∀ ref : Row,
      (p, ref) ∈ acceptedPairs observed "Mass" [[("Mass", Val.num 0)]] 100 →
      cellOf ref "Mass" ≠ Val.num 0) :=
  C4_zero_mass_silently_ignored ⟨["m_z"], [[("m_z", Val.num 1000)]]⟩
    ⟨["Mass"], [[("Mass", Val.num 0)]]⟩ 100 "m_z" "Mass" (by decide) (by decide)

/-- C8 counterexample: the peak attribute Foo = 1 collides with the
reference attribute Foo = 2, and the emitted match row holds the reference
value 2 — the peak value was overwritten, not passed through — so the claim
that both sides survive unchanged even under a shared name is false. -/
theorem C8_counterexample :
    match_peaks_to_glycans
        ⟨["m_z", "Foo"], [[("m_z", Val.num 1000), ("Foo", Val.num 1)]]⟩
        ⟨["Mass", "Foo"], [[("Mass", Val.num 1000), ("Foo", Val.num 2)]]⟩
        100 "m_z" "Mass" =
      Except.ok ([[("m_z", Val.num 1000), ("Foo", Val.num 2),
        ("observed_mz", Val.num 1000), ("Mass", Val.num 1000),
        ("ppm_difference", Val.num 0), ("confidence", Val.num 1)]], []) := by
  decide

/-- C8 amended: in an emitted match row, a peak attribute passes through
unchanged unless its name collides with a reference column or one of the
added fields observed_mz, ppm_difference, confidence; a reference attribute
is carried through unmodified unless named ppm_difference or confidence; on
a name shared between peak and reference the reference value wins (the
source builds the row by dict update, so later assignments overwrite). -/
theorem C8_attribute_passthrough_amended (row : Row) (observed : ℚ)
    (refCols : List String) (refRow : Row) (p t : ℚ) :
    (∀ k : String, k ∉ refCols → k ≠ "observed_mz" → k ≠ "ppm_difference" →
      k ≠ "confidence" →
      dictGet (buildMatchRow row observed refCols refRow p t) k =
        dictGet row k) ∧
    (∀ c ∈ refCols, c ≠ "ppm_difference" → c ≠ "confidence" →
      dictGet (buildMatchRow row observed refCols refRow p t) c =
        some (cellOf refRow c)) := by
  constructor
  · intro k hk h1 h2 h3
    unfold buildMatchRow
    rw [dictGet_dictSet_ne _ _ _ _ h3, dictGet_dictSet_ne _ _ _ _ h2,
      dictGet_foldl_notMem _ _ _ _ hk, dictGet_dictSet_ne _ _ _ _ h1]
  · intro c hc h1 h2
    unfold buildMatchRow
    rw [dictGet_dictSet_ne _ _ _ _ h2, dictGet_dictSet_ne _ _ _ _ h1,
      dictGet_foldl_mem _ _ _ _ hc]

/-- Witness for C8 amended, at the counterexample's inputs: the
non-colliding peak attribute m_z survives and the reference attributes are
carried through. -/
theorem C8_attribute_passthrough_amended_w :
    dictGet (buildMatchRow [("m_z", Val.num 1000), ("Foo", Val.num 1)] 1000
        ["Mass", "Foo"] [("Mass", Val.num 1000), ("Foo", Val.num 2)] 0 100)
      "m_z" = dictGet [("m_z", Val.num 1000), ("Foo", Val.num 1)] "m_z" ∧
    dictGet (buildMatchRow [("m_z", Val.num 1000), ("Foo", Val.num 1)] 1000
        ["Mass", "Foo"] [("Mass", Val.num 1000), ("Foo", Val.num 2)] 0 100)
      "Foo" = some (cellOf [("Mass", Val.num 1000), ("Foo", Val.num 2)] "Foo") :=
  ⟨(C8_attribute_passthrough_amended [("m_z", Val.num 1000), ("Foo", Val.num 1)]
      1000 ["Mass", "Foo"] [("Mass", Val.num 1000), ("Foo", Val.num 2)] 0 100).1
      "m_z" (by decide) (by decide) (by decide) (by decide),
   (C8_attribute_passthrough_amended [("m_z", Val.num 1000), ("Foo", Val.num 1)]
      1000 ["Mass", "Foo"] [("Mass", Val.num 1000), ("Foo", Val.num 2)] 0 100).2
      "Foo" (by decide) (by decide) (by decide)⟩

theorem getD_map_of_lt {α β : Type} (l : List α) (f : α → β) (i : ℕ)
    (d : α) (db : β) (h : i < l.length) :
    (l.map f).getD i db = f (l.getD i d) := by
  induction l generalizing i with
  | nil => cases h
  | cons a l ih =>
      cases i with
      | zero => rfl
      | succ n => exact ih n (by simpa using h)

/-- The property claim C3 asserts for a positive threshold t: confidence is
max(0, 1 - |ppm|/t), always in [0,1], equal to 1 iff the ppm error is 0,
equal to 0 iff |ppm| = t among in-threshold (emitted) values, clamped to 0
beyond the threshold; and recalculate_confidence computes
confidence_corrected by that same formula, with the same threshold, from
the corrected ppm column. -/
def ConfidenceProp (t : ℚ) : Prop :=
  (∀ x : ℚ, 0 ≤ calculate_confidence x t ∧ calculate_confidence x t ≤ 1) ∧
  (∀ x : ℚ, calculate_confidence x t = 1 ↔ x = 0) ∧
  (∀ x : ℚ, |x| ≤ t → (calculate_confidence x t = 0 ↔ |x| = t)) ∧
  (∀ x : ℚ, t < |x| → calculate_confidence x t = 0) ∧
  (∀ df : List Row, ∀ ppmCol : String, ∀ i : ℕ, i < df.length →
    ∀ x : ℚ, getNumO (df.getD i []) ppmCol = some x →
    dictGet ((recalculate_confidence df t ppmCol).getD i [])
        "confidence_corrected" = some (Val.num (calculate_confidence x t)))

/-- C3: confidence equals max(0, 1 - |ppm_difference| / ppm_threshold),
confidence_corrected is computed by the same formula from
ppm_difference_corrected with the same threshold, both lie in [0,1],
confidence is 1 iff the ppm difference is 0, is 0 iff |ppm| equals the
threshold among emitted (in-threshold) values, and clamps to 0 when the
absolute error exceeds the threshold. -/
theorem C3_confidence_formula (t : ℚ) (ht : 0 < t) : ConfidenceProp t := by
  have hd : ∀ x : ℚ, 0 ≤ |x| / t := fun x => div_nonneg (abs_nonneg x) ht.le
  refine ⟨?_, ?_, ?_, ?_, ?_⟩
  · intro x
    constructor
    · exact le_max_left 0 _
    · exact max_le (by norm_num) (by linarith [hd x])
  · intro x
    unfold calculate_confidence
    constructor
    · intro h
      rcases max_eq_iff.mp h with ⟨h0, _⟩ | ⟨h1, _⟩
      · norm_num at h0
      · have hx0 : |x| / t = 0 := by linarith
        rcases div_eq_zero_iff.mp hx0 with hx | hx
        · exact abs_eq_zero.mp hx
        · exact absurd hx ht.ne'
    · intro h
      subst h
      norm_num
  · intro x hle
    unfold calculate_confidence
    have h1 : |x| / t ≤ 1 := (div_le_one ht).mpr hle
    constructor
    · intro h
      have h2 : 1 - |x| / t ≤ 0 := by
        by_contra hc
        push_neg at hc
        rw [max_eq_right (le_of_lt hc)] at h
        linarith
      have h3 : |x| / t = 1 := by linarith
      calc |x| = |x| / t * t := by field_simp
      _ = t := by rw [h3]; ring
    · intro h
      rw [h, div_self ht.ne']
      norm_num
  · intro x hgt
    unfold calculate_confidence
    have h1 : 1 < |x| / t := (one_lt_div ht).mpr hgt
    exact max_eq_left (by linarith)
  · intro df ppmCol i hi x hx
    have hne : ¬ df.length = 0 := by omega
    unfold recalculate_confidence
    rw [if_neg hne, getD_map_of_lt df _ i [] [] hi]
    simp only [hx]
    rw [dictGet_dictSet_same]
    rfl

/-- Witness for C3 at threshold 100. -/
theorem C3_confidence_formula_w : ConfidenceProp 100 :=
  C3_confidence_formula 100 (by decide)

/-- The property claim C10 asserts: an empty matched set is a silently
accepted no-op for all three calibrator operations; correction and
confidence recomputation keep the row count and leave every field other
than the added ones (sample_shift_estimate, ppm_difference_corrected,
confidence_corrected) unchanged in every row — the source works on a copy,
so the input frame itself is also untouched; and every emitted shift row
belongs to a sample that actually occurs in the matched set (a sample with
zero matches yields no shift row). -/
def CalibratorAdditiveProp (df : List Row) (shifts : List ShiftRow) (t : ℚ)
    (ppmCol sampleCol : String) : Prop :=
  estimate_sample_shift [] ppmCol sampleCol = [] ∧
  apply_shift_correction [] shifts ppmCol sampleCol = [] ∧
  recalculate_confidence [] t ppmCol = [] ∧
  (apply_shift_correction df shifts ppmCol sampleCol).length = df.length ∧
  (recalculate_confidence df t ppmCol).length = df.length ∧
  (∀ i : ℕ, i < df.length → ∀ k : String, k ≠ "sample_shift_estimate" →
    k ≠ "ppm_difference_corrected" →
    dictGet ((apply_shift_correction df shifts ppmCol sampleCol).getD i []) k =
      dictGet (df.getD i []) k) ∧
  (∀ i : ℕ, i < df.length → ∀ k : String, k ≠ "confidence_corrected" →
    dictGet ((recalculate_confidence df t ppmCol).getD i []) k =
      dictGet (df.getD i []) k) ∧
  (∀ sr ∈ estimate_sample_shift df ppmCol sampleCol,
    ∃ r ∈ df, dictGet r sampleCol = some sr.sample)

/-- C10: the calibrator never mutates or drops match rows — correction and
confidence recomputation are purely additive, preserving every
pre-existing field and the row count, and operate on a copy rather than in
place; an empty matched set is accepted silently as a no-op; and a sample
with zero matches produces no shift-estimate row. -/
theorem C10_calibrator_additive (df : List Row) (shifts : List ShiftRow)
    (t : ℚ) (ppmCol sampleCol : String) :
    CalibratorAdditiveProp df shifts t ppmCol sampleCol := by
  refine ⟨rfl, rfl, rfl, ?_, ?_, ?_, ?_, ?_⟩
  · by_cases hz : df.length = 0
    · unfold apply_shift_correction
      rw [if_pos hz]
    · unfold apply_shift_correction
      rw [if_neg hz, List.length_map]
  · by_cases hz : df.length = 0
    · unfold recalculate_confidence
      rw [if_pos hz]
    · unfold recalculate_confidence
      rw [if_neg hz, List.length_map]
  · intro i hi k hk1 hk2
    have hz : ¬ df.length = 0 := by omega
    unfold apply_shift_correction
    rw [if_neg hz, getD_map_of_lt df _ i [] [] hi]
    simp only [dictGet_dictSet_ne _ _ _ _ hk2, dictGet_dictSet_ne _ _ _ _ hk1]
  · intro i hi k hk
    have hz : ¬ df.length = 0 := by omega
    unfold recalculate_confidence
    rw [if_neg hz, getD_map_of_lt df _ i [] [] hi]
    simp only [dictGet_dictSet_ne _ _ _ _ hk]
  · intro sr hsr
    obtain ⟨k, hk, hmk⟩ := List.mem_map.mp hsr
    have hk2 := List.mem_dedup.mp hk
    have hk3 := List.mem_filter.mp hk2
    obtain ⟨r, hr, hget⟩ := List.mem_filterMap.mp hk3.1
    refine ⟨r, hr, ?_⟩
    rw [← hmk]
    exact hget

/-- Witness for C10 at a concrete one-row matched set and shift table. -/
theorem C10_calibrator_additive_w :
    CalibratorAdditiveProp
      [[("sample_sheet", Val.str "A"), ("ppm_difference", Val.num 5)]]
      [{ sample := Val.str "A", shift_median := some 5, shift_mean := some 5,
         shift_std := RVal.nan, n_peaks := 1 }] 100
      "ppm_difference" "sample_sheet" :=
  C10_calibrator_additive _ _ _ _ _

/-- Whether a row has a non-NaN sample cell, as the groupby key column
needs. -/
def validSample (r : Row) (sampleCol : String) : Bool :=
  match dictGet r sampleCol with
  | some k => !(isNa k)
  | none => false

theorem getNumO_eq_some {r : Row} {c : String} {x : ℚ}
    (h : getNumO r c = some x) : dictGet r c = some (Val.num x) := by
  unfold getNumO at h
  cases hv : dictGet r c with
  | none => rw [hv] at h; cases h
  | some v =>
      rw [hv] at h
      cases v with
      | num q =>
          have : q = x := Option.some.inj h
          rw [this]
      | nan => cases h
      | str s => cases h

theorem getD_mem_of_lt {α : Type} (l : List α) (i : ℕ) (d : α)
    (h : i < l.length) : l.getD i d ∈ l := by
  induction l generalizing i with
  | nil => cases h
  | cons a l ih =>
      cases i with
      | zero => exact List.mem_cons_self a l
      | succ n => exact List.mem_cons_of_mem a (ih n (by simpa using h))

theorem mem_sampleKeys_of {df : List Row} {sampleCol : String} {r : Row}
    {k : Val} (hr : r ∈ df) (hget : dictGet r sampleCol = some k)
    (hna : isNa k = false) : k ∈ sampleKeys df sampleCol := by
  unfold sampleKeys
  rw [List.mem_dedup, List.mem_filter]
  exact ⟨List.mem_filterMap.mpr ⟨r, hr, hget⟩, by rw [hna]; rfl⟩

theorem medianQ_isSome {xs : List ℚ} (h : xs ≠ []) :
    ∃ m : ℚ, medianQ xs = some m := by
  unfold medianQ
  rw [if_neg (fun h0 => h (List.length_eq_zero.mp h0))]
  exact ⟨_, rfl⟩

theorem meanQ_of_ne_nil {xs : List ℚ} (h : xs ≠ []) :
    meanQ xs = some (xs.sum / (xs.length : ℚ)) := by
  unfold meanQ
  rw [if_neg (fun h0 => h (List.length_eq_zero.mp h0))]

theorem groupVals_mem {df : List Row} {sampleCol ppmCol : String} {k : Val}
    {r : Row} {x : ℚ} (hr : r ∈ df) (hk : dictGet r sampleCol = some k)
    (hx : getNumO r ppmCol = some x) :
    x ∈ groupVals df sampleCol ppmCol k :=
  List.mem_filterMap.mpr
    ⟨r, List.mem_filter.mpr ⟨hr, by rw [hk]; exact decide_eq_true rfl⟩, hx⟩

theorem filterMap_length_of_all_some {α : Type} {l : List α}
    {f : α → Option ℚ} (h : ∀ r ∈ l, (f r).isSome = true) :
    (l.filterMap f).length = l.length := by
  induction l with
  | nil => rfl
  | cons a l ih =>
      obtain ⟨x, hx⟩ := Option.isSome_iff_exists.mp (h a (List.mem_cons_self a l))
      rw [List.filterMap_cons_some hx, List.length_cons, List.length_cons,
        ih (fun r hr => h r (List.mem_cons_of_mem a hr))]

theorem lookupShift_map {keys : List Val} {k : Val} (mk : Val → ShiftRow)
    (hmk : ∀ k1 : Val, (mk k1).sample = k1) (hk : k ∈ keys) :
    lookupShift (keys.map mk) k = some (mk k) := by
  induction keys with
  | nil => cases hk
  | cons a rest ih =>
      unfold lookupShift at *
      rw [List.map_cons, List.find?_cons]
      by_cases ha : a = k
      · subst ha
        rw [show (decide ((mk a).sample = a)) = true from
          decide_eq_true (hmk a)]
      · rw [show (decide ((mk a).sample = k)) = false from
          decide_eq_false (fun h => ha ((hmk a) ▸ h))]
        exact ih (by
          rcases List.mem_cons.mp hk with h1 | h1
          · exact absurd h1.symm ha
          · exact h1)

/-- Looking a group key up in the estimate table retrieves exactly that
group's aggregated statistics. -/
theorem estimate_lookup (df : List Row) (ppmCol sampleCol : String)
    {k : Val} (hk : k ∈ sampleKeys df sampleCol) :
    lookupShift (estimate_sample_shift df ppmCol sampleCol) k =
      some { sample := k,
             shift_median := medianQ (groupVals df sampleCol ppmCol k),
             shift_mean := meanQ (groupVals df sampleCol ppmCol k),
             shift_std := stdQ (groupVals df sampleCol ppmCol k),
             n_peaks := (groupVals df sampleCol ppmCol k).length } := by
  unfold estimate_sample_shift
  exact lookupShift_map _ (fun k1 => rfl) hk

theorem subVal_nan (v : Val) : subVal v Val.nan = Val.nan := by
  cases v <;> rfl

/-- The property claim C5 asserts of a matched set: every emitted shift row
carries the group size as n_peaks (at least 1), the median, the mean
sum/n, the sample standard deviation sqrt of sum of squared deviations over
n - 1 (NaN exactly when fewer than two peaks) of its sample's signed ppm
values; and after correction every row exposes its own sample's
shift_median as sample_shift_estimate and carries
ppm_difference_corrected = ppm_difference - shift_median. -/
def ShiftStatsProp (df : List Row) (ppmCol sampleCol : String) : Prop :=
  (∀ sr ∈ estimate_sample_shift df ppmCol sampleCol,
    sr.n_peaks = (df.filter
      (fun r => decide (dictGet r sampleCol = some sr.sample))).length ∧
    1 ≤ sr.n_peaks ∧
    sr.shift_median = medianQ (groupVals df sampleCol ppmCol sr.sample) ∧
    sr.shift_mean = some ((groupVals df sampleCol ppmCol sr.sample).sum /
      ((groupVals df sampleCol ppmCol sr.sample).length : ℚ)) ∧
    (sr.n_peaks < 2 → sr.shift_std = RVal.nan) ∧
    (2 ≤ sr.n_peaks → sr.shift_std = RVal.sqrtOf
      (((groupVals df sampleCol ppmCol sr.sample).map
          (fun x => (x - (groupVals df sampleCol ppmCol sr.sample).sum /
            ((groupVals df sampleCol ppmCol sr.sample).length : ℚ)) ^ 2)).sum /
        (((groupVals df sampleCol ppmCol sr.sample).length : ℚ) - 1)))) ∧
  (∀ i : ℕ, i < df.length → ∀ k : Val, ∀ x : ℚ,
    dictGet (df.getD i []) sampleCol = some k →
    getNumO (df.getD i []) ppmCol = some x →
    ∃ m : ℚ, medianQ (groupVals df sampleCol ppmCol k) = some m ∧
      dictGet ((apply_shift_correction df
          (estimate_sample_shift df ppmCol sampleCol) ppmCol sampleCol).getD
          i []) "sample_shift_estimate" = some (Val.num m) ∧
      dictGet ((apply_shift_correction df
          (estimate_sample_shift df ppmCol sampleCol) ppmCol sampleCol).getD
          i []) "ppm_difference_corrected" = some (Val.num (x - m)))

/-- C5: grouping the matched set by sample, each sample's shift estimate
row holds the median, mean and sample standard deviation (NaN when fewer
than 2 peaks) of that sample's signed ppm differences together with the
group size, and each match's ppm_difference_corrected equals its
ppm_difference minus its own sample's shift_median, which is exposed on the
row as sample_shift_estimate. -/
theorem C5_shift_stats_and_correction (df : List Row)
    (ppmCol sampleCol : String)
    (hw : ∀ r ∈ df, (getNumO r ppmCol).isSome = true)
    (hs : ∀ r ∈ df, validSample r sampleCol = true)
    (hp1 : ppmCol ≠ "sample_shift_estimate") :
    ShiftStatsProp df ppmCol sampleCol := by
  constructor
  · intro sr hsr
    obtain ⟨k, hk, hmk⟩ := List.mem_map.mp hsr
    subst hmk
    dsimp only
    have hgrp : groupVals df sampleCol ppmCol k =
        (df.filter (fun r => decide (dictGet r sampleCol = some k))).filterMap
          (fun r => getNumO r ppmCol) := rfl
    have hlen : (groupVals df sampleCol ppmCol k).length =
        (df.filter (fun r => decide (dictGet r sampleCol = some k))).length := by
      rw [hgrp]
      exact filterMap_length_of_all_some
        (fun r hr => hw r (List.mem_of_mem_filter hr))
    have hpos : groupVals df sampleCol ppmCol k ≠ [] := by
      unfold sampleKeys at hk
      rw [List.mem_dedup, List.mem_filter] at hk
      obtain ⟨r0, hr0, hget0⟩ := List.mem_filterMap.mp hk.1
      obtain ⟨x0, hx0⟩ := Option.isSome_iff_exists.mp (hw r0 hr0)
      exact List.ne_nil_of_mem (groupVals_mem hr0 hget0 hx0)
    refine ⟨hlen, ?_, rfl, ?_, ?_, ?_⟩
    · have := List.length_pos.mpr hpos
      omega
    · exact meanQ_of_ne_nil hpos
    · intro hlt
      unfold stdQ
      rw [if_pos hlt]
    · intro hge
      unfold stdQ
      rw [if_neg (by omega)]
  · intro i hi k x hk hx
    have hrmem : df.getD i [] ∈ df := getD_mem_of_lt df i [] hi
    have hna : isNa k = false := by
      have hv := hs (df.getD i []) hrmem
      unfold validSample at hv
      rw [hk] at hv
      simpa using hv
    have hkk : k ∈ sampleKeys df sampleCol := mem_sampleKeys_of hrmem hk hna
    obtain ⟨m, hm⟩ := medianQ_isSome (List.ne_nil_of_mem
      (groupVals_mem hrmem hk hx))
    refine ⟨m, hm, ?_, ?_⟩
    · have hz : ¬ df.length = 0 := by omega
      unfold apply_shift_correction
      rw [if_neg hz, getD_map_of_lt df _ i [] [] hi]
      simp only [hk, estimate_lookup df ppmCol sampleCol hkk, hm]
      rw [dictGet_dictSet_ne _ _ _ _ (by decide), dictGet_dictSet_same]
      rfl
    · have hz : ¬ df.length = 0 := by omega
      unfold apply_shift_correction
      rw [if_neg hz, getD_map_of_lt df _ i [] [] hi]
      simp only [hk, estimate_lookup df ppmCol sampleCol hkk, hm]
      rw [dictGet_dictSet_same,
        dictGet_dictSet_ne _ _ _ _ hp1, getNumO_eq_some hx]
      rfl

/-- Witness for C5: two samples with ppm values [20, 22, 24] and [10]. -/
theorem C5_shift_stats_and_correction_w :
    ShiftStatsProp
      [[("sample_sheet", Val.str "A"), ("ppm_difference", Val.num 20)],
       [("sample_sheet", Val.str "A"), ("ppm_difference", Val.num 22)],
       [("sample_sheet", Val.str "A"), ("ppm_difference", Val.num 24)],
       [("sample_sheet", Val.str "B"), ("ppm_difference", Val.num 10)]]
      "ppm_difference" "sample_sheet" :=
  C5_shift_stats_and_correction _ _ _ (by decide) (by decide) (by decide)

/-- C6 counterexample: correcting a matched set whose sample "B" has no
entry in the shift table raises no error at all — the row comes back with
NaN sample_shift_estimate and NaN ppm_difference_corrected (pandas
Series.map yields NaN on a missing key), so the claim that a
MissingShiftError is raised instead of producing a corrected row is
false. -/
theorem C6_counterexample :
    apply_shift_correction
      [[("sample_sheet", Val.str "B"), ("ppm_difference", Val.num 5)]]
      (estimate_sample_shift
        [[("sample_sheet", Val.str "A"), ("ppm_difference", Val.num 3)]]
        "ppm_difference" "sample_sheet")
      "ppm_difference" "sample_sheet" =
      [[("sample_sheet", Val.str "B"), ("ppm_difference", Val.num 5),
        ("sample_shift_estimate", Val.nan),
        ("ppm_difference_corrected", Val.nan)]] := by decide

/-- C6 amended: during correction each match's sample is looked up in the
shift table, and a match whose sample has no estimate is not an error: the
operation still returns a row for it, with NaN sample_shift_estimate and
NaN ppm_difference_corrected. -/
theorem C6_missing_shift_yields_nan (df : List Row) (shifts : List ShiftRow)
    (ppmCol sampleCol : String) (i : ℕ) (hi : i < df.length) (k : Val)
    (hk : dictGet (df.getD i []) sampleCol = some k)
    (hmiss : lookupShift shifts k = none) :
    dictGet ((apply_shift_correction df shifts ppmCol sampleCol).getD i [])
        "sample_shift_estimate" = some Val.nan ∧
    dictGet ((apply_shift_correction df shifts ppmCol sampleCol).getD i [])
        "ppm_difference_corrected" = some Val.nan := by
  have hz : ¬ df.length = 0 := by omega
  constructor
  · unfold apply_shift_correction
    rw [if_neg hz, getD_map_of_lt df _ i [] [] hi]
    simp only [hk, hmiss]
    rw [dictGet_dictSet_ne _ _ _ _ (by decide), dictGet_dictSet_same]
  · unfold apply_shift_correction
    rw [if_neg hz, getD_map_of_lt df _ i [] [] hi]
    simp only [hk, hmiss, subVal_nan]
    rw [dictGet_dictSet_same]

/-- Witness for C6 amended at the counterexample's inputs. -/
theorem C6_missing_shift_yields_nan_w :
    dictGet ((apply_shift_correction
        [[("sample_sheet", Val.str "B"), ("ppm_difference", Val.num 5)]]
        (estimate_sample_shift
          [[("sample_sheet", Val.str "A"), ("ppm_difference", Val.num 3)]]
          "ppm_difference" "sample_sheet")
        "ppm_difference" "sample_sheet").getD 0 [])
      "sample_shift_estimate" = some Val.nan ∧
    dictGet ((apply_shift_correction
        [[("sample_sheet", Val.str "B"), ("ppm_difference", Val.num 5)]]
        (estimate_sample_shift
          [[("sample_sheet", Val.str "A"), ("ppm_difference", Val.num 3)]]
          "ppm_difference" "sample_sheet")
        "ppm_difference" "sample_sheet").getD 0 [])
      "ppm_difference_corrected" = some Val.nan :=
  C6_missing_shift_yields_nan
    [[("sample_sheet", Val.str "B"), ("ppm_difference", Val.num 5)]]
    (estimate_sample_shift
      [[("sample_sheet", Val.str "A"), ("ppm_difference", Val.num 3)]]
      "ppm_difference" "sample_sheet")
    "ppm_difference" "sample_sheet" 0 (by decide) (Val.str "B")
    (by decide) (by decide)

theorem insertionSort_map_sub (xs : List ℚ) (c : ℚ) :
    (xs.map (fun x => x - c)).insertionSort (fun a b => a ≤ b) =
      (xs.insertionSort (fun a b => a ≤ b)).map (fun x => x - c) := by
  have hperm : ((xs.map (fun x => x - c)).insertionSort
      (fun a b => a ≤ b)).Perm
      ((xs.insertionSort (fun a b => a ≤ b)).map (fun x => x - c)) :=
    (List.perm_insertionSort _ _).trans
      ((List.perm_insertionSort (fun a b => a ≤ b) xs).symm.map _)
  have hs1 : List.Sorted (fun a b : ℚ => a ≤ b)
      ((xs.map (fun x => x - c)).insertionSort (fun a b => a ≤ b)) :=
    List.sorted_insertionSort _ _
  have hs2 : List.Sorted (fun a b : ℚ => a ≤ b)
      ((xs.insertionSort (fun a b => a ≤ b)).map (fun x => x - c)) :=
    List.Pairwise.map _ (fun a b h => by linarith)
      (List.sorted_insertionSort (fun a b => a ≤ b) xs)
  exact List.eq_of_perm_of_sorted hperm hs1 hs2

/-- Subtracting a constant from every value commutes with taking the
median. -/
theorem medianQ_map_sub (xs : List ℚ) (c : ℚ) :
    medianQ (xs.map (fun x => x - c)) =
      (medianQ xs).map (fun m => m - c) := by
  unfold medianQ
  dsimp only
  rw [List.length_map]
  by_cases h0 : xs.length = 0
  · rw [if_pos h0, if_pos h0]
    rfl
  · rw [if_neg h0, if_neg h0, insertionSort_map_sub]
    have hlen : (xs.insertionSort (fun a b => a ≤ b)).length = xs.length :=
      (List.perm_insertionSort _ xs).length_eq
    have hlt1 : xs.length / 2 <
        (xs.insertionSort (fun a b => a ≤ b)).length := by omega
    have hlt2 : xs.length / 2 - 1 <
        (xs.insertionSort (fun a b => a ≤ b)).length := by omega
    rw [getD_map_of_lt _ _ _ 0 0 hlt1, getD_map_of_lt _ _ _ 0 0 hlt2]
    by_cases hpar : xs.length % 2 = 1
    · rw [if_pos hpar, if_pos hpar]
      rfl
    · rw [if_neg hpar, if_neg hpar,
        show ∀ y : ℚ, Option.map (fun v => v - c) (some y) = some (y - c)
          from fun y => rfl]
      congr 1
      ring

theorem filterMap_congr_mem {α β : Type} {l : List α} {f g : α → Option β}
    (h : ∀ x ∈ l, f x = g x) : l.filterMap f = l.filterMap g := by
  induction l with
  | nil => rfl
  | cons a l ih =>
      rw [List.filterMap_cons, List.filterMap_cons,
        h a (List.mem_cons_self a l),
        ih (fun x hx => h x (List.mem_cons_of_mem a hx))]

theorem filter_congr_mem {α : Type} {l : List α} {p q : α → Bool}
    (h : ∀ x ∈ l, p x = q x) : l.filter p = l.filter q := by
  induction l with
  | nil => rfl
  | cons a l ih =>
      rw [List.filter_cons, List.filter_cons, h a (List.mem_cons_self a l),
        ih (fun x hx => h x (List.mem_cons_of_mem a hx))]

theorem filterMap_shift {l : List Row} {f1 f2 : Row → Option ℚ} {c : ℚ}
    (h : ∀ r ∈ l, ∃ x : ℚ, f1 r = some x ∧ f2 r = some (x - c)) :
    l.filterMap f2 = (l.filterMap f1).map (fun x => x - c) := by
  induction l with
  | nil => rfl
  | cons a l ih =>
      obtain ⟨x, hx1, hx2⟩ := h a (List.mem_cons_self a l)
      rw [List.filterMap_cons_some hx2, List.filterMap_cons_some hx1,
        List.map_cons, ih (fun r hr => h r (List.mem_cons_of_mem a hr))]

/-- Mapping a row transformation that does not disturb the sample key
column leaves the groupby keys unchanged. -/
theorem sampleKeys_map_eq {df : List Row} {g : Row → Row}
    {sampleCol : String}
    (h : ∀ r ∈ df, dictGet (g r) sampleCol = dictGet r sampleCol) :
    sampleKeys (df.map g) sampleCol = sampleKeys df sampleCol := by
  unfold sampleKeys
  rw [List.filterMap_map,
    filterMap_congr_mem
      (show ∀ r ∈ df, ((fun r => dictGet r sampleCol) ∘ g) r =
          (fun r => dictGet r sampleCol) r from fun r hr => h r hr)]

/-- Mapping a row transformation that preserves the key column and shifts
the extracted numeric column by a constant shifts the group values by that
constant. -/
theorem groupVals_map_shift {df : List Row} {g : Row → Row}
    {sampleCol bCol ppmCol : String} {k : Val} {c : ℚ}
    (hkey : ∀ r ∈ df, dictGet (g r) sampleCol = dictGet r sampleCol)
    (hval : ∀ r ∈ df, dictGet r sampleCol = some k →
      ∃ x : ℚ, getNumO r ppmCol = some x ∧
        getNumO (g r) bCol = some (x - c)) :
    groupVals (df.map g) sampleCol bCol k =
      (groupVals df sampleCol ppmCol k).map (fun x => x - c) := by
  unfold groupVals
  rw [List.filter_map,
    filter_congr_mem
      (show ∀ r ∈ df,
          ((fun r => decide (dictGet r sampleCol = some k)) ∘ g) r =
          (fun r => decide (dictGet r sampleCol = some k)) r from
        fun r hr => by simp only [Function.comp_apply, hkey r hr]),
    List.filterMap_map]
  exact filterMap_shift (fun r hr =>
    hval r (List.mem_of_mem_filter hr)
      (of_decide_eq_true (List.mem_filter.mp hr).2))

/-- Correction does not disturb the sample key column, so the groupby keys
of the corrected set equal those of the input. -/
theorem apply_keys_eq (df : List Row) (shifts : List ShiftRow)
    (ppmCol sampleCol : String)
    (hc1 : sampleCol ≠ "sample_shift_estimate")
    (hc2 : sampleCol ≠ "ppm_difference_corrected") :
    sampleKeys (apply_shift_correction df shifts ppmCol sampleCol) sampleCol =
      sampleKeys df sampleCol := by
  by_cases hz : df.length = 0
  · unfold apply_shift_correction
    rw [if_pos hz]
  · unfold apply_shift_correction
    rw [if_neg hz]
    apply sampleKeys_map_eq
    intro r hr
    simp only [dictGet_dictSet_ne _ _ _ _ hc2,
      dictGet_dictSet_ne _ _ _ _ hc1]

/-- Correcting with the shift table estimated from the same matched set
shifts each group's value list by exactly that group's median. -/
theorem apply_groupVals (df : List Row) (ppmCol sampleCol : String)
    (hw : ∀ r ∈ df, (getNumO r ppmCol).isSome = true)
    (hp1 : ppmCol ≠ "sample_shift_estimate")
    (hc1 : sampleCol ≠ "sample_shift_estimate")
    (hc2 : sampleCol ≠ "ppm_difference_corrected")
    {k : Val} (hk : k ∈ sampleKeys df sampleCol) {m : ℚ}
    (hm : medianQ (groupVals df sampleCol ppmCol k) = some m)
    (hz : ¬ df.length = 0) :
    groupVals (apply_shift_correction df
        (estimate_sample_shift df ppmCol sampleCol) ppmCol sampleCol)
      sampleCol "ppm_difference_corrected" k =
      (groupVals df sampleCol ppmCol k).map (fun x => x - m) := by
  unfold apply_shift_correction
  rw [if_neg hz]
  apply groupVals_map_shift
  · intro r hr
    simp only [dictGet_dictSet_ne _ _ _ _ hc2,
      dictGet_dictSet_ne _ _ _ _ hc1]
  · intro r hr hkr
    obtain ⟨x, hx⟩ := Option.isSome_iff_exists.mp (hw r hr)
    refine ⟨x, hx, ?_⟩
    unfold getNumO
    simp only [hkr, estimate_lookup df ppmCol sampleCol hk, hm,
      dictGet_dictSet_same, dictGet_dictSet_ne _ _ _ _ hp1,
      getNumO_eq_some hx, Option.getD_some, Option.some_bind, valOfOpt,
      subVal, getNum]

/-- C7: calibration is idempotent — estimating shifts a second time over
the already-corrected values, using ppm_difference_corrected as the input
column, yields shift_median exactly 0 for every sample (exact rational
arithmetic; the spec allows floating-point tolerance around 0). -/
theorem C7_recalibration_shift_zero (df : List Row)
    (ppmCol sampleCol : String)
    (hw : ∀ r ∈ df, (getNumO r ppmCol).isSome = true)
    (hs : ∀ r ∈ df, validSample r sampleCol = true)
    (hp1 : ppmCol ≠ "sample_shift_estimate")
    (hc1 : sampleCol ≠ "sample_shift_estimate")
    (hc2 : sampleCol ≠ "ppm_difference_corrected") :
    ∀ sr ∈ estimate_sample_shift
        (apply_shift_correction df (estimate_sample_shift df ppmCol sampleCol)
          ppmCol sampleCol) "ppm_difference_corrected" sampleCol,
      sr.shift_median = some 0 := by
  intro sr hsr
  by_cases hz : df.length = 0
  · rw [List.length_eq_zero.mp hz] at hsr
    exact absurd hsr (List.not_mem_nil sr)
  · have hkeys := apply_keys_eq df (estimate_sample_shift df ppmCol sampleCol)
      ppmCol sampleCol hc1 hc2
    unfold estimate_sample_shift at hsr hkeys
    rw [hkeys] at hsr
    obtain ⟨k, hk, hmk⟩ := List.mem_map.mp hsr
    subst hmk
    show medianQ (groupVals
      (apply_shift_correction df (estimate_sample_shift df ppmCol sampleCol)
        ppmCol sampleCol) sampleCol "ppm_difference_corrected" k) = some 0
    obtain ⟨r0, hr0, hget0⟩ : ∃ r ∈ df, dictGet r sampleCol = some k := by
      unfold sampleKeys at hk
      rw [List.mem_dedup, List.mem_filter] at hk
      obtain ⟨r0, hr0, hget0⟩ := List.mem_filterMap.mp hk.1
      exact ⟨r0, hr0, hget0⟩
    obtain ⟨x0, hx0⟩ := Option.isSome_iff_exists.mp (hw r0 hr0)
    obtain ⟨m, hm⟩ := medianQ_isSome
      (List.ne_nil_of_mem (groupVals_mem hr0 hget0 hx0))
    rw [apply_groupVals df ppmCol sampleCol hw hp1 hc1 hc2 hk hm hz,
      medianQ_map_sub, hm]
    simp

/-- Witness for C7: one sample with ppm values [20, 22, 24]; after
correction the re-estimated median is 0. -/
theorem C7_recalibration_shift_zero_w :
    ((estimate_sample_shift
        (apply_shift_correction
          [[("sample_sheet", Val.str "A"), ("ppm_difference", Val.num 20)],
           [("sample_sheet", Val.str "A"), ("ppm_difference", Val.num 22)],
           [("sample_sheet", Val.str "A"), ("ppm_difference", Val.num 24)]]
          (estimate_sample_shift
            [[("sample_sheet", Val.str "A"), ("ppm_difference", Val.num 20)],
             [("sample_sheet", Val.str "A"), ("ppm_difference", Val.num 22)],
             [("sample_sheet", Val.str "A"), ("ppm_difference", Val.num 24)]]
            "ppm_difference" "sample_sheet")
          "ppm_difference" "sample_sheet")
        "ppm_difference_corrected" "sample_sheet").getD 0
      { sample := Val.nan, shift_median := none, shift_mean := none,
        shift_std := RVal.nan, n_peaks := 0 }).shift_median = some 0 :=
  C7_recalibration_shift_zero
    [[("sample_sheet", Val.str "A"), ("ppm_difference", Val.num 20)],
     [("sample_sheet", Val.str "A"), ("ppm_difference", Val.num 22)],
     [("sample_sheet", Val.str "A"), ("ppm_difference", Val.num 24)]]
    "ppm_difference" "sample_sheet" (by decide) (by decide) (by decide)
    (by decide) (by decide) _ (by decide)

end Glyco
